import Mathlib

/-!
# Verification of the openclaw-superpack hook runner

Shallow embedding of `src/plugins/superpack-hooks.ts` (the function
`createSuperpackHookRunner` and its helpers `sortByPriority`, `getHooks`,
`hasHooks`, and the six typed invocation functions).

Modelling conventions:

* A JS value that a handler settles with is modelled as
  `Except Unit (Option α)`: `Except.error ()` is a synchronous throw or a
  promise rejection, `Except.ok none` is a void/undefined return, and
  `Except.ok (some r)` is a returned result object `r`.
* Result objects carry `Option` fields where the runner tests the field at
  runtime (`result?.tools`, `"skillsPrompt" in result`, `result.files`,
  `result?.append`): `none` models an absent/undefined field.  Boolean
  fields tested for truthiness (`result.skip`, `result?.block`) are `Bool`.
* `await` sequencing inside the for-loops is the plain sequencing of the
  pure model; per-iteration try/catch is the `Except` match in the step
  functions.
* The loops additionally return a ghost trace (the list of event views the
  runner constructed and passed to the handlers, in invocation order); the
  trace is discarded by the invocation functions themselves, exactly as the
  real control flow never stores those views.
-/

-- ---------------------------------------------------------------------------
-- Hook names (the closed enumeration of SuperpackHookName)
-- ---------------------------------------------------------------------------

inductive SuperpackHookName
  | system_prompt_tools_filter
  | system_prompt_skills_filter
  | system_prompt_footer
  | workspace_bootstrap_before
  | workspace_bootstrap_after
  | subagent_prompt_validate
deriving DecidableEq, Repr

-- ---------------------------------------------------------------------------
-- Event types (field for field from the TS type declarations)
-- ---------------------------------------------------------------------------

structure ToolEntry where
  name : String
  description : Option String
deriving DecidableEq, Repr, Inhabited

structure SystemPromptToolsFilterEvent where
  agentId : String
  promptMode : String
  tools : List ToolEntry
deriving DecidableEq, Repr, Inhabited

structure SystemPromptSkillsFilterEvent where
  agentId : String
  promptMode : String
  skillsPrompt : String
deriving DecidableEq, Repr, Inhabited

structure SystemPromptFooterEvent where
  agentId : String
  promptMode : String
  currentPrompt : String
deriving DecidableEq, Repr, Inhabited

structure BootstrapFile where
  name : String
  content : String
deriving DecidableEq, Repr, Inhabited

structure WorkspaceBootstrapBeforeEvent where
  workspaceDir : String
  files : List BootstrapFile
  isNewWorkspace : Bool
deriving DecidableEq, Repr, Inhabited

structure WorkspaceBootstrapAfterEvent where
  workspaceDir : String
  filesWritten : List String
  filesSkipped : List String
deriving DecidableEq, Repr, Inhabited

structure SubagentPromptValidateEvent where
  agentId : String
  parentAgentId : String
  systemPrompt : String
  sessionKey : String
deriving DecidableEq, Repr, Inhabited

-- ---------------------------------------------------------------------------
-- Runtime result shapes, as the runner inspects them
-- ---------------------------------------------------------------------------

/-- Runtime value of a tools-filter result object; `tools = none` models an
object whose tools field is absent or undefined (the runner tests
`result?.tools`; an array, even empty, is truthy). -/
structure ToolsFilterRet where
  tools : Option (List ToolEntry)
deriving DecidableEq, Repr

/-- Runtime value of a skills-filter result object; `skillsPrompt = some s`
models presence of the field (the runner tests membership, so the empty
string still counts as present). -/
structure SkillsFilterRet where
  skillsPrompt : Option String
deriving DecidableEq, Repr

/-- Runtime value of a footer result object; the runner tests
`result?.append` for truthiness, so both an absent field and the empty
string contribute nothing. -/
structure FooterRet where
  append : Option String
deriving DecidableEq, Repr

/-- Runtime value of a bootstrap-before result object; `files = none` models
an absent/undefined files field, `skip` is the truthiness of the skip
field (absent or false both give `false`). -/
structure BeforeRet where
  files : Option (List BootstrapFile)
  skip : Bool
deriving DecidableEq, Repr

/-- Runtime value of a subagent-validate result object; `block` is the
truthiness of the block field. -/
structure ValidateRet where
  block : Bool
  reason : Option String
deriving DecidableEq, Repr

structure SystemPromptToolsFilterResult where
  tools : List ToolEntry
deriving DecidableEq, Repr

structure SystemPromptSkillsFilterResult where
  skillsPrompt : String
deriving DecidableEq, Repr

structure SystemPromptFooterResult where
  append : String
deriving DecidableEq, Repr

structure WorkspaceBootstrapBeforeResult where
  files : List BootstrapFile
  skip : Bool
deriving DecidableEq, Repr

structure SubagentPromptValidateResult where
  block : Bool
  reason : Option String
deriving DecidableEq, Repr

/-- Settlement of one handler invocation: throw/reject, void return, or a
result object. -/
abbrev HandlerOutcome (α : Type) := Except Unit (Option α)

/-- A registered handler; the constructor records which hook shape the
handler has (in TS this is enforced by the type map `HandlerMap`). -/
inductive SuperpackHookHandler
  | toolsFilter (f : SystemPromptToolsFilterEvent → HandlerOutcome ToolsFilterRet)
  | skillsFilter (f : SystemPromptSkillsFilterEvent → HandlerOutcome SkillsFilterRet)
  | footer (f : SystemPromptFooterEvent → HandlerOutcome FooterRet)
  | bootstrapBefore (f : WorkspaceBootstrapBeforeEvent → HandlerOutcome BeforeRet)
  | bootstrapAfter (f : WorkspaceBootstrapAfterEvent → Except Unit Unit)
  | validate (f : SubagentPromptValidateEvent → HandlerOutcome ValidateRet)

/-- One entry of the registration list: hookName, handler, priority. -/
structure HookRegistration where
  hookName : SuperpackHookName
  handler : SuperpackHookHandler
  priority : Int

instance : Inhabited HookRegistration :=
  ⟨⟨SuperpackHookName.workspace_bootstrap_after,
    SuperpackHookHandler.bootstrapAfter (fun _ => Except.ok ()), 0⟩⟩

-- ---------------------------------------------------------------------------
-- sortByPriority / getHooks / hasHooks
-- ---------------------------------------------------------------------------

/-- One insertion step of a stable descending insertion sort: `x` is placed
before the first element of strictly smaller priority, hence after every
earlier-listed element of greater-or-equal priority. -/
def insertDesc (x : HookRegistration) : List HookRegistration → List HookRegistration
  | [] => [x]
  | y :: ys => if y.priority ≤ x.priority then x :: y :: ys else y :: insertDesc x ys

/-- Models `sortByPriority`:
`[...hooks].sort((a, b) => (b.priority ?? 0) - (a.priority ?? 0))`.
ECMAScript `Array.prototype.sort` is stable and the comparator orders by
priority descending, so the output is the unique permutation that is sorted
by descending priority with ties kept in input order; a stable insertion
sort computes exactly that permutation.  (`priority` is a required number
field, so the `?? 0` fallbacks never fire.) -/
def sortByPriority : List HookRegistration → List HookRegistration
  | [] => []
  | x :: xs => insertDesc x (sortByPriority xs)

/-- Models `getHooks`: filter the registration list to the given hook name,
then sort by descending priority. -/
def getHooks (registrations : List HookRegistration) (name : SuperpackHookName) :
    List HookRegistration :=
  sortByPriority (registrations.filter (fun r => r.hookName = name))

/-- Models `hasHooks`: `registrations.some((r) => r.hookName === name)`. -/
def hasHooks (registrations : List HookRegistration) (name : SuperpackHookName) : Bool :=
  registrations.any (fun r => r.hookName = name)

-- ---------------------------------------------------------------------------
-- runSystemPromptToolsFilter
-- ---------------------------------------------------------------------------

/-- One iteration of the tools-filter loop body, given the running value
`current`: build the event view, call the handler, and on
`if (result?.tools) current = result.tools` keep or replace `current`;
a throw (`catch`) or a void return leaves `current` unchanged.  A
registration whose handler has a different shape cannot occur under this
hook name in typed TS; it is modelled as leaving `current` unchanged. -/
def toolsStep (event : SystemPromptToolsFilterEvent) (current : List ToolEntry)
    (hook : HookRegistration) : List ToolEntry :=
  match hook.handler with
  | SuperpackHookHandler.toolsFilter f =>
    match f { event with tools := current } with
    | Except.ok (some r) => r.tools.getD current
    | _ => current
  | _ => current

/-- The tools-filter for-loop: returns the ghost trace of event views passed
to the handlers (in order) and the final `current`. -/
def runToolsLoop (event : SystemPromptToolsFilterEvent) :
    List HookRegistration → List ToolEntry →
    List SystemPromptToolsFilterEvent × List ToolEntry
  | [], current => ([], current)
  | hook :: rest, current =>
    let ev := { event with tools := current }
    let out := runToolsLoop event rest (toolsStep event current hook)
    (ev :: out.1, out.2)

/-- Models `runSystemPromptToolsFilter`. -/
def runSystemPromptToolsFilter (registrations : List HookRegistration)
    (event : SystemPromptToolsFilterEvent) : SystemPromptToolsFilterResult :=
  { tools := (runToolsLoop event
      (getHooks registrations SuperpackHookName.system_prompt_tools_filter)
      event.tools).2 }

-- ---------------------------------------------------------------------------
-- runSystemPromptSkillsFilter
-- ---------------------------------------------------------------------------

/-- One iteration of the skills-filter loop body:
`if (result && "skillsPrompt" in result) current = result.skillsPrompt` —
presence of the field replaces `current`, even with the empty string. -/
def skillsStep (event : SystemPromptSkillsFilterEvent) (current : String)
    (hook : HookRegistration) : String :=
  match hook.handler with
  | SuperpackHookHandler.skillsFilter f =>
    match f { event with skillsPrompt := current } with
    | Except.ok (some r) => r.skillsPrompt.getD current
    | _ => current
  | _ => current

/-- The skills-filter for-loop with its ghost trace of event views. -/
def runSkillsLoop (event : SystemPromptSkillsFilterEvent) :
    List HookRegistration → String →
    List SystemPromptSkillsFilterEvent × String
  | [], current => ([], current)
  | hook :: rest, current =>
    let ev := { event with skillsPrompt := current }
    let out := runSkillsLoop event rest (skillsStep event current hook)
    (ev :: out.1, out.2)

/-- Models `runSystemPromptSkillsFilter`. -/
def runSystemPromptSkillsFilter (registrations : List HookRegistration)
    (event : SystemPromptSkillsFilterEvent) : SystemPromptSkillsFilterResult :=
  { skillsPrompt := (runSkillsLoop event
      (getHooks registrations SuperpackHookName.system_prompt_skills_filter)
      event.skillsPrompt).2 }

-- ---------------------------------------------------------------------------
-- runSystemPromptFooter
-- ---------------------------------------------------------------------------

/-- The fragment one footer handler contributes:
`if (result?.append) parts.push(result.append)` — a throw, a void return,
an absent append field or an empty string contribute nothing.  The handler
is applied to the original event, never to a modified view. -/
def footerContrib (event : SystemPromptFooterEvent) (hook : HookRegistration) :
    Option String :=
  match hook.handler with
  | SuperpackHookHandler.footer f =>
    match f event with
    | Except.ok (some r) =>
      match r.append with
      | some a => if a = "" then none else some a
      | none => none
    | _ => none
  | _ => none

/-- The footer for-loop, accumulating `parts` in invocation order. -/
def runFooterLoop (event : SystemPromptFooterEvent) :
    List HookRegistration → List String
  | [] => []
  | hook :: rest =>
    match footerContrib event hook with
    | some a => a :: runFooterLoop event rest
    | none => runFooterLoop event rest

/-- Models `runSystemPromptFooter`; `parts.join("\n")` is
`String.intercalate "\n"`, giving the empty string on an empty `parts`. -/
def runSystemPromptFooter (registrations : List HookRegistration)
    (event : SystemPromptFooterEvent) : SystemPromptFooterResult :=
  { append := String.intercalate "\n"
      (runFooterLoop event
        (getHooks registrations SuperpackHookName.system_prompt_footer)) }

-- ---------------------------------------------------------------------------
-- runWorkspaceBootstrapBefore
-- ---------------------------------------------------------------------------

/-- One iteration of the bootstrap-before loop body over the running state
(currentFiles, skip):
`if (result) { if (result.files) currentFiles = result.files; if (result.skip) skip = true; }`,
with a throw leaving the state unchanged. -/
def beforeStep (event : WorkspaceBootstrapBeforeEvent)
    (st : List BootstrapFile × Bool) (hook : HookRegistration) :
    List BootstrapFile × Bool :=
  match hook.handler with
  | SuperpackHookHandler.bootstrapBefore f =>
    match f { event with files := st.1 } with
    | Except.ok (some r) => (r.files.getD st.1, st.2 || r.skip)
    | _ => st
  | _ => st

/-- Whether one bootstrap-before handler, run from state `st`, returns a
result object whose skip field is truthy (false on throw or void). -/
def beforeSetsSkip (event : WorkspaceBootstrapBeforeEvent)
    (st : List BootstrapFile × Bool) (hook : HookRegistration) : Bool :=
  match hook.handler with
  | SuperpackHookHandler.bootstrapBefore f =>
    match f { event with files := st.1 } with
    | Except.ok (some r) => r.skip
    | _ => false
  | _ => false

/-- Whether some handler along the chain, run from the state the chain has
reached when it is tried, returns a result object with a truthy skip
field. -/
def anySkip (event : WorkspaceBootstrapBeforeEvent)
    (st : List BootstrapFile × Bool) : List HookRegistration → Bool
  | [] => false
  | hook :: rest =>
    beforeSetsSkip event st hook || anySkip event (beforeStep event st hook) rest

/-- The bootstrap-before for-loop with its ghost trace of event views. -/
def runBeforeLoop (event : WorkspaceBootstrapBeforeEvent) :
    List HookRegistration → (List BootstrapFile × Bool) →
    List WorkspaceBootstrapBeforeEvent × (List BootstrapFile × Bool)
  | [], st => ([], st)
  | hook :: rest, st =>
    let ev := { event with files := st.1 }
    let out := runBeforeLoop event rest (beforeStep event st hook)
    (ev :: out.1, out.2)

/-- Models `runWorkspaceBootstrapBefore`; the state starts at
(event.files, false). -/
def runWorkspaceBootstrapBefore (registrations : List HookRegistration)
    (event : WorkspaceBootstrapBeforeEvent) : WorkspaceBootstrapBeforeResult :=
  let fin := (runBeforeLoop event
      (getHooks registrations SuperpackHookName.workspace_bootstrap_before)
      (event.files, false)).2
  { files := fin.1, skip := fin.2 }

-- ---------------------------------------------------------------------------
-- runWorkspaceBootstrapAfter
-- ---------------------------------------------------------------------------

/-- Whether the handler of one bootstrap-after hook itself fulfils when
applied to the original event (false = it threw or rejected).  The wrapper
around it swallows the failure, so this value is only observable through
test doubles, never through the aggregate promise. -/
def afterInner (event : WorkspaceBootstrapAfterEvent) (hook : HookRegistration) : Bool :=
  match hook.handler with
  | SuperpackHookHandler.bootstrapAfter f =>
    match f event with
    | Except.ok _ => true
    | Except.error _ => false
  | _ => true

/-- Settlement of one wrapped task `async (hook) => { try { await hook.handler(event) } catch {} }`:
the try/catch swallows the failure, so the task always fulfils. -/
def afterTaskOutcome (event : WorkspaceBootstrapAfterEvent) (hook : HookRegistration) : Bool :=
  match hook.handler with
  | SuperpackHookHandler.bootstrapAfter f =>
    match f event with
    | Except.ok _ => true
    | Except.error _ => true
  | _ => true

/-- `Promise.all` fulfils exactly when every element promise fulfils. -/
def promiseAllOutcome (outcomes : List Bool) : Bool :=
  outcomes.all (fun o => o)

/-- Observable event of one bootstrap-after invocation: task `i` settles
(recording whether the inner handler fulfilled), or the aggregate promise
resolves (`true` = fulfilled, `false` = rejected). -/
inductive AfterEvent
  | settled (i : Nat) (innerOk : Bool)
  | resolved (ok : Bool)
deriving DecidableEq, Repr

/-- Models `runWorkspaceBootstrapAfter` denotationally: the handlers are all
started and may overlap; `σ` is the order in which the wrapped tasks happen
to settle (any permutation of the task indices).  The trace lists the task
settlements in that order followed by the resolution of the
`await Promise.all(...)`. -/
def runWorkspaceBootstrapAfterTrace (registrations : List HookRegistration)
    (event : WorkspaceBootstrapAfterEvent) (σ : List Nat) : List AfterEvent :=
  let hooks := getHooks registrations SuperpackHookName.workspace_bootstrap_after
  (σ.map (fun i => AfterEvent.settled i (afterInner event (hooks.getD i default)))) ++
    [AfterEvent.resolved
      (promiseAllOutcome (σ.map (fun i => afterTaskOutcome event (hooks.getD i default))))]

-- ---------------------------------------------------------------------------
-- runSubagentPromptValidate
-- ---------------------------------------------------------------------------

/-- The verdict of one validate handler on the original event: `some res`
exactly when it returns a result object with a truthy block field, in which
case the loop returns `{ block: true, reason: result.reason }`; a throw, a
void return or a non-blocking result yield `none` and the scan continues. -/
def validateOutcome (event : SubagentPromptValidateEvent) (hook : HookRegistration) :
    Option SubagentPromptValidateResult :=
  match hook.handler with
  | SuperpackHookHandler.validate f =>
    match f event with
    | Except.ok (some r) =>
      if r.block then some { block := true, reason := r.reason } else none
    | _ => none
  | _ => none

/-- The validate for-loop: returns the ghost trace of hooks whose handler
was invoked (the scan stops right after the first blocking one) and the
result. -/
def runValidateLoop (event : SubagentPromptValidateEvent) :
    List HookRegistration →
    List HookRegistration × SubagentPromptValidateResult
  | [] => ([], { block := false, reason := none })
  | hook :: rest =>
    match validateOutcome event hook with
    | some res => ([hook], res)
    | none =>
      let out := runValidateLoop event rest
      (hook :: out.1, out.2)

/-- Models `runSubagentPromptValidate`. -/
def runSubagentPromptValidate (registrations : List HookRegistration)
    (event : SubagentPromptValidateEvent) : SubagentPromptValidateResult :=
  (runValidateLoop event
    (getHooks registrations SuperpackHookName.subagent_prompt_validate)).2

-- ---------------------------------------------------------------------------
-- Mutable-array view of sortByPriority / getHooks
-- ---------------------------------------------------------------------------

/-!
JS arrays are mutable references and `Array.prototype.sort` sorts in place;
`sortByPriority` protects its argument by first copying it (`[...hooks]`).
To state that the invocation functions leave the caller-supplied
registration array untouched, this section models arrays as cells of an
explicit store: a cell index is a reference, spreading allocates a fresh
cell, and the in-place `.sort` is a write to the cell being sorted. -/

/-- A reference to a JS array of registrations. -/
abbrev ArrayRef := Nat

/-- The store of live registration arrays; cell `r` holds the array that
reference `r` points to. -/
abbrev RegStore := List (List HookRegistration)

/-- Dereference. -/
def readRef (st : RegStore) (r : ArrayRef) : List HookRegistration :=
  st.getD r []

/-- Allocate a fresh array holding `v`; returns the new store and the new
reference. -/
def allocRef (st : RegStore) (v : List HookRegistration) : RegStore × ArrayRef :=
  (st ++ [v], st.length)

/-- Overwrite the array behind `r` (the in-place part of `.sort`). -/
def writeRef (st : RegStore) (r : ArrayRef) (v : List HookRegistration) : RegStore :=
  st.set r v

/-- Store-level `sortByPriority hooks`: `[...hooks]` allocates a copy, then
`.sort(...)` mutates that copy in place; the sorted copy is returned and the
argument array is never written. -/
def sortByPriorityRef (st : RegStore) (r : ArrayRef) : RegStore × ArrayRef :=
  let alloc := allocRef st (readRef st r)
  (writeRef alloc.1 alloc.2 (sortByPriority (readRef alloc.1 alloc.2)), alloc.2)

/-- Store-level `getHooks registrations name`: `registrations.filter(...)`
allocates a fresh array of the matches, which is then handed to
`sortByPriorityRef`. -/
def getHooksRef (st : RegStore) (r : ArrayRef) (name : SuperpackHookName) :
    RegStore × ArrayRef :=
  let flt := allocRef st ((readRef st r).filter (fun x => x.hookName = name))
  sortByPriorityRef flt.1 flt.2

-- ---------------------------------------------------------------------------
-- Auxiliary predicates used by the theorems
-- ---------------------------------------------------------------------------

/-- A handler that throws (or rejects) on every event. -/
def handlerAlwaysThrows : SuperpackHookHandler → Prop
  | SuperpackHookHandler.toolsFilter f => ∀ e, f e = Except.error ()
  | SuperpackHookHandler.skillsFilter f => ∀ e, f e = Except.error ()
  | SuperpackHookHandler.footer f => ∀ e, f e = Except.error ()
  | SuperpackHookHandler.bootstrapBefore f => ∀ e, f e = Except.error ()
  | SuperpackHookHandler.bootstrapAfter f => ∀ e, f e = Except.error ()
  | SuperpackHookHandler.validate f => ∀ e, f e = Except.error ()

-- ---------------------------------------------------------------------------
-- Helper lemmas: the sort
-- ---------------------------------------------------------------------------

theorem insertDesc_perm (x : HookRegistration) (l : List HookRegistration) :
    (insertDesc x l).Perm (x :: l) := by
  induction l with
  | nil => simp [insertDesc]
  | cons y ys ih =>
    by_cases h : y.priority ≤ x.priority
    · simp [insertDesc, h]
    · simpa [insertDesc, h] using ((ih.cons y).trans (List.Perm.swap x y ys))

theorem sortByPriority_perm (l : List HookRegistration) :
    (sortByPriority l).Perm l := by
  induction l with
  | nil => simp [sortByPriority]
  | cons x xs ih =>
    exact (insertDesc_perm x (sortByPriority xs)).trans (ih.cons x)

theorem mem_insertDesc {z x : HookRegistration} {l : List HookRegistration} :
    z ∈ insertDesc x l ↔ z = x ∨ z ∈ l :=
  by simpa using (insertDesc_perm x l).mem_iff

theorem insertDesc_pairwise {x : HookRegistration} {l : List HookRegistration}
    (hl : l.Pairwise (fun a b => b.priority ≤ a.priority)) :
    (insertDesc x l).Pairwise (fun a b => b.priority ≤ a.priority) := by
  induction l with
  | nil => simp [insertDesc]
  | cons y ys ih =>
    rcases List.pairwise_cons.mp hl with ⟨hy, hys⟩
    by_cases h : y.priority ≤ x.priority
    · have he : insertDesc x (y :: ys) = x :: y :: ys := by
        simp [insertDesc, h]
      rw [he]
      refine List.pairwise_cons.mpr ⟨?_, hl⟩
      intro z hz
      rcases List.mem_cons.mp hz with rfl | hz
      · exact h
      · exact le_trans (hy z hz) h
    · have he : insertDesc x (y :: ys) = y :: insertDesc x ys := by
        simp [insertDesc, h]
      rw [he]
      refine List.pairwise_cons.mpr ⟨?_, ih hys⟩
      intro z hz
      rcases mem_insertDesc.mp hz with rfl | hz
      · exact le_of_lt (lt_of_not_le h)
      · exact hy z hz

theorem sortByPriority_pairwise (l : List HookRegistration) :
    (sortByPriority l).Pairwise (fun a b => b.priority ≤ a.priority) := by
  induction l with
  | nil => simp [sortByPriority]
  | cons x xs ih => exact insertDesc_pairwise ih

theorem filter_insertDesc (p : Int) (x : HookRegistration) (l : List HookRegistration) :
    (insertDesc x l).filter (fun r => r.priority = p) =
      if x.priority = p then x :: l.filter (fun r => r.priority = p)
      else l.filter (fun r => r.priority = p) := by
  induction l with
  | nil => by_cases hx : x.priority = p <;> simp [insertDesc, hx]
  | cons y ys ih =>
    by_cases h : y.priority ≤ x.priority
    · have he : insertDesc x (y :: ys) = x :: y :: ys := by
        simp [insertDesc, h]
      rw [he]
      by_cases hx : x.priority = p <;> by_cases hy : y.priority = p <;>
        simp [List.filter_cons, hx, hy]
    · have he : insertDesc x (y :: ys) = y :: insertDesc x ys := by
        simp [insertDesc, h]
      have hlt : x.priority < y.priority := lt_of_not_le h
      rw [he]
      by_cases hx : x.priority = p
      · have hy : ¬ y.priority = p := by
          intro hy
          exact absurd (hx.trans hy.symm) (ne_of_lt hlt)
        simp [List.filter_cons, hx, hy, ih]
      · by_cases hy : y.priority = p <;> simp [List.filter_cons, hx, hy, ih]

theorem sortByPriority_filter_priority (p : Int) (l : List HookRegistration) :
    (sortByPriority l).filter (fun r => r.priority = p) =
      l.filter (fun r => r.priority = p) := by
  induction l with
  | nil => simp [sortByPriority]
  | cons x xs ih =>
    by_cases hx : x.priority = p <;>
      simp [sortByPriority, filter_insertDesc, hx, ih]

theorem getHooks_perm (regs : List HookRegistration) (name : SuperpackHookName) :
    (getHooks regs name).Perm (regs.filter (fun r => r.hookName = name)) :=
  sortByPriority_perm _

theorem mem_getHooks {hook : HookRegistration} {regs : List HookRegistration}
    {name : SuperpackHookName} (h : hook ∈ getHooks regs name) :
    hook ∈ regs ∧ hook.hookName = name := by
  have := (getHooks_perm regs name).mem_iff.mp h
  have := List.mem_filter.mp this
  exact ⟨this.1, by simpa using this.2⟩

theorem getHooks_eq_nil {regs : List HookRegistration} {name : SuperpackHookName}
    (h : ∀ r ∈ regs, r.hookName ≠ name) : getHooks regs name = [] := by
  unfold getHooks
  have hf : regs.filter (fun r => r.hookName = name) = [] := by
    rw [List.filter_eq_nil_iff]
    intro r hr
    simpa using h r hr
  rw [hf]
  rfl

-- ---------------------------------------------------------------------------
-- Helper lemmas: the sequential loops
-- ---------------------------------------------------------------------------

theorem runToolsLoop_snd (event : SystemPromptToolsFilterEvent)
    (hooks : List HookRegistration) : ∀ cur,
    (runToolsLoop event hooks cur).2 = hooks.foldl (toolsStep event) cur := by
  induction hooks with
  | nil => intro cur; rfl
  | cons hook rest ih => intro cur; simp [runToolsLoop, List.foldl_cons, ih]

theorem runToolsLoop_length (event : SystemPromptToolsFilterEvent)
    (hooks : List HookRegistration) : ∀ cur,
    (runToolsLoop event hooks cur).1.length = hooks.length := by
  induction hooks with
  | nil => intro cur; rfl
  | cons hook rest ih => intro cur; simp [runToolsLoop, ih]

theorem runToolsLoop_getD (event : SystemPromptToolsFilterEvent)
    (hooks : List HookRegistration) : ∀ cur i, i < hooks.length →
    (runToolsLoop event hooks cur).1.getD i default =
      { event with tools := (hooks.take i).foldl (toolsStep event) cur } := by
  induction hooks with
  | nil => intro cur i hi; simp at hi
  | cons hook rest ih =>
    intro cur i hi
    cases i with
    | zero => simp [runToolsLoop]
    | succ j =>
      have := ih (toolsStep event cur hook) j (by simpa using hi)
      simpa [runToolsLoop, List.foldl_cons] using this

theorem runSkillsLoop_snd (event : SystemPromptSkillsFilterEvent)
    (hooks : List HookRegistration) : ∀ cur,
    (runSkillsLoop event hooks cur).2 = hooks.foldl (skillsStep event) cur := by
  induction hooks with
  | nil => intro cur; rfl
  | cons hook rest ih => intro cur; simp [runSkillsLoop, List.foldl_cons, ih]

theorem runSkillsLoop_length (event : SystemPromptSkillsFilterEvent)
    (hooks : List HookRegistration) : ∀ cur,
    (runSkillsLoop event hooks cur).1.length = hooks.length := by
  induction hooks with
  | nil => intro cur; rfl
  | cons hook rest ih => intro cur; simp [runSkillsLoop, ih]

theorem runSkillsLoop_getD (event : SystemPromptSkillsFilterEvent)
    (hooks : List HookRegistration) : ∀ cur i, i < hooks.length →
    (runSkillsLoop event hooks cur).1.getD i default =
      { event with skillsPrompt := (hooks.take i).foldl (skillsStep event) cur } := by
  induction hooks with
  | nil => intro cur i hi; simp at hi
  | cons hook rest ih =>
    intro cur i hi
    cases i with
    | zero => simp [runSkillsLoop]
    | succ j =>
      have := ih (skillsStep event cur hook) j (by simpa using hi)
      simpa [runSkillsLoop, List.foldl_cons] using this

theorem runBeforeLoop_snd (event : WorkspaceBootstrapBeforeEvent)
    (hooks : List HookRegistration) : ∀ st,
    (runBeforeLoop event hooks st).2 = hooks.foldl (beforeStep event) st := by
  induction hooks with
  | nil => intro st; rfl
  | cons hook rest ih => intro st; simp [runBeforeLoop, List.foldl_cons, ih]

theorem runBeforeLoop_length (event : WorkspaceBootstrapBeforeEvent)
    (hooks : List HookRegistration) : ∀ st,
    (runBeforeLoop event hooks st).1.length = hooks.length := by
  induction hooks with
  | nil => intro st; rfl
  | cons hook rest ih => intro st; simp [runBeforeLoop, ih]

theorem runBeforeLoop_getD (event : WorkspaceBootstrapBeforeEvent)
    (hooks : List HookRegistration) : ∀ st i, i < hooks.length →
    (runBeforeLoop event hooks st).1.getD i default =
      { event with files := ((hooks.take i).foldl (beforeStep event) st).1 } := by
  induction hooks with
  | nil => intro st i hi; simp at hi
  | cons hook rest ih =>
    intro st i hi
    cases i with
    | zero => simp [runBeforeLoop]
    | succ j =>
      have := ih (beforeStep event st hook) j (by simpa using hi)
      simpa [runBeforeLoop, List.foldl_cons] using this

theorem runFooterLoop_eq_filterMap (event : SystemPromptFooterEvent)
    (hooks : List HookRegistration) :
    runFooterLoop event hooks = hooks.filterMap (footerContrib event) := by
  induction hooks with
  | nil => rfl
  | cons hook rest ih =>
    cases hc : footerContrib event hook <;>
      simp [runFooterLoop, hc, List.filterMap_cons, ih]

theorem runValidateLoop_all_none (event : SubagentPromptValidateEvent)
    {hooks : List HookRegistration}
    (h : ∀ k ∈ hooks, validateOutcome event k = none) :
    runValidateLoop event hooks = (hooks, { block := false, reason := none }) := by
  induction hooks with
  | nil => rfl
  | cons hook rest ih =>
    have h0 : validateOutcome event hook = none := h hook (by simp)
    have ihh := ih (fun k hk => h k (by simp [hk]))
    simp [runValidateLoop, h0, ihh]

theorem runValidateLoop_first (event : SubagentPromptValidateEvent)
    {pre : List HookRegistration} {hook : HookRegistration}
    (post : List HookRegistration) {res : SubagentPromptValidateResult}
    (hpre : ∀ k ∈ pre, validateOutcome event k = none)
    (hblk : validateOutcome event hook = some res) :
    runValidateLoop event (pre ++ hook :: post) = (pre ++ [hook], res) := by
  induction pre with
  | nil => simp [runValidateLoop, hblk]
  | cons p pre2 ih =>
    have h0 : validateOutcome event p = none := hpre p (by simp)
    have ihh := ih (fun k hk => hpre k (by simp [hk]))
    simp [runValidateLoop, h0, ihh]

theorem foldl_fix {α : Type} (step : α → HookRegistration → α) :
    ∀ (hooks : List HookRegistration) (cur : α),
      (∀ k ∈ hooks, ∀ c, step c k = c) → hooks.foldl step cur = cur := by
  intro hooks
  induction hooks with
  | nil => intro cur _; rfl
  | cons hook rest ih =>
    intro cur h
    rw [List.foldl_cons, h hook (by simp) cur]
    exact ih cur (fun k hk c => h k (by simp [hk]) c)

-- ---------------------------------------------------------------------------
-- Helper lemmas: throwing handlers leave the fold state unchanged
-- ---------------------------------------------------------------------------

theorem toolsStep_throws {hook : HookRegistration} (h : handlerAlwaysThrows hook.handler)
    (event : SystemPromptToolsFilterEvent) (cur : List ToolEntry) :
    toolsStep event cur hook = cur := by
  obtain ⟨n, hd, p⟩ := hook
  cases hd with
  | toolsFilter f =>
    have hf : f { event with tools := cur } = Except.error () :=
      h { event with tools := cur }
    simp [toolsStep, hf]
  | skillsFilter f => rfl
  | footer f => rfl
  | bootstrapBefore f => rfl
  | bootstrapAfter f => rfl
  | validate f => rfl

theorem skillsStep_throws {hook : HookRegistration} (h : handlerAlwaysThrows hook.handler)
    (event : SystemPromptSkillsFilterEvent) (cur : String) :
    skillsStep event cur hook = cur := by
  obtain ⟨n, hd, p⟩ := hook
  cases hd with
  | skillsFilter f =>
    have hf : f { event with skillsPrompt := cur } = Except.error () :=
      h { event with skillsPrompt := cur }
    simp [skillsStep, hf]
  | toolsFilter f => rfl
  | footer f => rfl
  | bootstrapBefore f => rfl
  | bootstrapAfter f => rfl
  | validate f => rfl

theorem beforeStep_throws {hook : HookRegistration} (h : handlerAlwaysThrows hook.handler)
    (event : WorkspaceBootstrapBeforeEvent) (st : List BootstrapFile × Bool) :
    beforeStep event st hook = st := by
  obtain ⟨n, hd, p⟩ := hook
  cases hd with
  | bootstrapBefore f =>
    have hf : f { event with files := st.1 } = Except.error () :=
      h { event with files := st.1 }
    simp [beforeStep, hf]
  | toolsFilter f => rfl
  | skillsFilter f => rfl
  | footer f => rfl
  | bootstrapAfter f => rfl
  | validate f => rfl

theorem footerContrib_throws {hook : HookRegistration} (h : handlerAlwaysThrows hook.handler)
    (event : SystemPromptFooterEvent) :
    footerContrib event hook = none := by
  obtain ⟨n, hd, p⟩ := hook
  cases hd with
  | footer f =>
    have hf : f event = Except.error () := h event
    simp [footerContrib, hf]
  | toolsFilter f => rfl
  | skillsFilter f => rfl
  | bootstrapBefore f => rfl
  | bootstrapAfter f => rfl
  | validate f => rfl

theorem validateOutcome_throws {hook : HookRegistration} (h : handlerAlwaysThrows hook.handler)
    (event : SubagentPromptValidateEvent) :
    validateOutcome event hook = none := by
  obtain ⟨n, hd, p⟩ := hook
  cases hd with
  | validate f =>
    have hf : f event = Except.error () := h event
    simp [validateOutcome, hf]
  | toolsFilter f => rfl
  | skillsFilter f => rfl
  | footer f => rfl
  | bootstrapBefore f => rfl
  | bootstrapAfter f => rfl

theorem afterTaskOutcome_true (event : WorkspaceBootstrapAfterEvent)
    (hook : HookRegistration) : afterTaskOutcome event hook = true := by
  obtain ⟨n, hd, p⟩ := hook
  cases hd with
  | bootstrapAfter f =>
    cases hf : f event <;> simp [afterTaskOutcome, hf]
  | toolsFilter f => rfl
  | skillsFilter f => rfl
  | footer f => rfl
  | bootstrapBefore f => rfl
  | validate f => rfl

-- ---------------------------------------------------------------------------
-- Helper lemmas: the skip flag
-- ---------------------------------------------------------------------------

theorem beforeStep_snd (event : WorkspaceBootstrapBeforeEvent)
    (st : List BootstrapFile × Bool) (hook : HookRegistration) :
    (beforeStep event st hook).2 = (st.2 || beforeSetsSkip event st hook) := by
  obtain ⟨n, hd, p⟩ := hook
  cases hd with
  | bootstrapBefore f =>
    simp only [beforeStep, beforeSetsSkip]
    cases hf : f { event with files := st.1 } with
    | error e => simp
    | ok o => cases o <;> simp
  | toolsFilter f => simp [beforeStep, beforeSetsSkip]
  | skillsFilter f => simp [beforeStep, beforeSetsSkip]
  | footer f => simp [beforeStep, beforeSetsSkip]
  | bootstrapAfter f => simp [beforeStep, beforeSetsSkip]
  | validate f => simp [beforeStep, beforeSetsSkip]

theorem foldl_beforeStep_snd (event : WorkspaceBootstrapBeforeEvent)
    (hooks : List HookRegistration) : ∀ st,
    (hooks.foldl (beforeStep event) st).2 = (st.2 || anySkip event st hooks) := by
  induction hooks with
  | nil => intro st; simp [anySkip]
  | cons hook rest ih =>
    intro st
    rw [List.foldl_cons, ih, anySkip, beforeStep_snd, Bool.or_assoc]

theorem anySkip_iff (event : WorkspaceBootstrapBeforeEvent) :
    ∀ (hooks : List HookRegistration) (st : List BootstrapFile × Bool),
    anySkip event st hooks = true ↔
      ∃ pre hook post, hooks = pre ++ hook :: post ∧
        beforeSetsSkip event (pre.foldl (beforeStep event) st) hook = true := by
  intro hooks
  induction hooks with
  | nil =>
    intro st
    constructor
    · intro h; simp [anySkip] at h
    · rintro ⟨pre, hook, post, habs, -⟩
      cases pre <;> simp at habs
  | cons hook rest ih =>
    intro st
    rw [anySkip, Bool.or_eq_true]
    constructor
    · rintro (hset | hrest)
      · exact ⟨[], hook, rest, rfl, by simpa using hset⟩
      · obtain ⟨pre, h2, post, heq, hset⟩ := (ih (beforeStep event st hook)).mp hrest
        exact ⟨hook :: pre, h2, post, by rw [heq]; rfl,
          by simpa [List.foldl_cons] using hset⟩
    · rintro ⟨pre, h2, post, heq, hset⟩
      cases pre with
      | nil =>
        rw [List.nil_append] at heq
        obtain ⟨rfl, rfl⟩ := List.cons.inj heq
        left
        simpa using hset
      | cons p pre2 =>
        rw [List.cons_append] at heq
        obtain ⟨rfl, heq2⟩ := List.cons.inj heq
        right
        exact (ih (beforeStep event st hook)).mpr
          ⟨pre2, h2, post, heq2, by simpa [List.foldl_cons] using hset⟩

-- ---------------------------------------------------------------------------
-- Helper lemmas: the store model
-- ---------------------------------------------------------------------------

theorem set_append_singleton (st : RegStore) (v w : List HookRegistration) :
    (st ++ [v]).set st.length w = st ++ [w] := by
  induction st with
  | nil => rfl
  | cons a rest ih => simp [List.set, ih]

theorem readRef_append_singleton (st : RegStore) (v : List HookRegistration) :
    readRef (st ++ [v]) st.length = v := by
  induction st with
  | nil => rfl
  | cons a rest ih => simp [readRef, List.getD]

theorem readRef_append_lt (st st' : RegStore) {r : ArrayRef} (h : r < st.length) :
    readRef (st ++ st') r = readRef st r := by
  unfold readRef
  rw [List.getD_append _ _ _ _ h]

theorem sortByPriorityRef_eq (st : RegStore) (r : ArrayRef) :
    sortByPriorityRef st r = (st ++ [sortByPriority (readRef st r)], st.length) := by
  show (List.set (st ++ [readRef st r]) st.length
      (sortByPriority (readRef (st ++ [readRef st r]) st.length)), st.length) = _
  rw [readRef_append_singleton, set_append_singleton]

/-- Closed form of the store-level getHooks: it allocates the filtered array
and the sorted copy as two fresh cells and returns a reference to the
latter; no pre-existing cell is written. -/
theorem getHooksRef_eq (st : RegStore) (r : ArrayRef) (name : SuperpackHookName) :
    getHooksRef st r name =
      (st ++ [(readRef st r).filter (fun x => x.hookName = name)] ++
        [getHooks (readRef st r) name], st.length + 1) := by
  show sortByPriorityRef
      (st ++ [(readRef st r).filter (fun x => x.hookName = name)]) st.length = _
  rw [sortByPriorityRef_eq, readRef_append_singleton]
  simp [getHooks]

-- ---------------------------------------------------------------------------
-- Claim theorems
-- ---------------------------------------------------------------------------

/-- C1: with any registration list in which every handler throws (or rejects)
on every event, each of the six invocation functions still produces the
well-formed identity/default result of its model — the tools, skills prompt
or files pass through unchanged, the footer is empty, skip is false, the
bootstrap-after promise resolves, and validation does not block.  (In the
embedding the invocation functions are total Lean functions into the result
types, so no exception can reach the caller by construction; this theorem
checks the remaining content, that the fold survives every handler
failing.) -/
theorem hook_runner_failure_isolation (regs : List HookRegistration)
    (hthrow : ∀ r ∈ regs, handlerAlwaysThrows r.handler) :
    (∀ ev, runSystemPromptToolsFilter regs ev = { tools := ev.tools }) ∧
    (∀ ev, runSystemPromptSkillsFilter regs ev = { skillsPrompt := ev.skillsPrompt }) ∧
    (∀ ev, runSystemPromptFooter regs ev = { append := "" }) ∧
    (∀ ev, runWorkspaceBootstrapBefore regs ev = { files := ev.files, skip := false }) ∧
    (∀ ev σ, (runWorkspaceBootstrapAfterTrace regs ev σ).getLast? =
      some (AfterEvent.resolved true)) ∧
    (∀ ev, runSubagentPromptValidate regs ev = { block := false, reason := none }) := by
  refine ⟨?_, ?_, ?_, ?_, ?_, ?_⟩
  · intro ev
    unfold runSystemPromptToolsFilter
    rw [runToolsLoop_snd, foldl_fix _ _ _
      (fun k hk c => toolsStep_throws (hthrow k (mem_getHooks hk).1) ev c)]
  · intro ev
    unfold runSystemPromptSkillsFilter
    rw [runSkillsLoop_snd, foldl_fix _ _ _
      (fun k hk c => skillsStep_throws (hthrow k (mem_getHooks hk).1) ev c)]
  · intro ev
    unfold runSystemPromptFooter
    rw [runFooterLoop_eq_filterMap]
    have : (getHooks regs SuperpackHookName.system_prompt_footer).filterMap
        (footerContrib ev) = [] := by
      rw [List.filterMap_eq_nil_iff]
      intro k hk
      exact footerContrib_throws (hthrow k (mem_getHooks hk).1) ev
    rw [this]
    rfl
  · intro ev
    unfold runWorkspaceBootstrapBefore
    rw [runBeforeLoop_snd, foldl_fix _ _ _
      (fun k hk c => beforeStep_throws (hthrow k (mem_getHooks hk).1) ev c)]
  · intro ev σ
    unfold runWorkspaceBootstrapAfterTrace
    rw [List.getLast?_concat]
    have : promiseAllOutcome (σ.map (fun i => afterTaskOutcome ev
        ((getHooks regs SuperpackHookName.workspace_bootstrap_after).getD i default)))
        = true := by
      unfold promiseAllOutcome
      rw [List.all_eq_true]
      intro o ho
      rcases List.mem_map.mp ho with ⟨i, -, rfl⟩
      exact afterTaskOutcome_true ev _
    rw [this]
  · intro ev
    unfold runSubagentPromptValidate
    rw [runValidateLoop_all_none ev
      (fun k hk => validateOutcome_throws (hthrow k (mem_getHooks hk).1) ev)]

/-- Witness for C1 at a concrete registration list whose six handlers all
throw, and concrete events. -/
theorem hook_runner_failure_isolation_witness :
    runSystemPromptToolsFilter
      [⟨SuperpackHookName.system_prompt_tools_filter,
        SuperpackHookHandler.toolsFilter (fun _ => Except.error ()), 5⟩,
       ⟨SuperpackHookName.subagent_prompt_validate,
        SuperpackHookHandler.validate (fun _ => Except.error ()), 1⟩]
      { agentId := "main", promptMode := "full",
        tools := [⟨"exec", some "run"⟩] } =
      { tools := [⟨"exec", some "run"⟩] } ∧
    runSubagentPromptValidate
      [⟨SuperpackHookName.system_prompt_tools_filter,
        SuperpackHookHandler.toolsFilter (fun _ => Except.error ()), 5⟩,
       ⟨SuperpackHookName.subagent_prompt_validate,
        SuperpackHookHandler.validate (fun _ => Except.error ()), 1⟩]
      { agentId := "sub", parentAgentId := "main", systemPrompt := "p",
        sessionKey := "s" } =
      { block := false, reason := none } := by
  have h := hook_runner_failure_isolation
    [⟨SuperpackHookName.system_prompt_tools_filter,
      SuperpackHookHandler.toolsFilter (fun _ => Except.error ()), 5⟩,
     ⟨SuperpackHookName.subagent_prompt_validate,
      SuperpackHookHandler.validate (fun _ => Except.error ()), 1⟩]
    (by
      intro r hr
      rcases List.mem_cons.mp hr with rfl | hr
      · intro e; rfl
      · rcases List.mem_cons.mp hr with rfl | hr
        · intro e; rfl
        · cases hr)
  exact ⟨h.1 _, h.2.2.2.2.2 _⟩

/-- C3: for every hook name, getHooks returns the matching registrations in
descending-priority order, two matching registrations of equal priority keep
their original relative order (the equal-priority subsequence of the output
is exactly that of the filtered input), and the output is a permutation of
the matching registrations.  The invocation loops consume this list front to
back, so this is the invocation order. -/
theorem getHooks_order (regs : List HookRegistration) (name : SuperpackHookName) :
    (getHooks regs name).Pairwise (fun a b => b.priority ≤ a.priority) ∧
    (∀ p : Int, (getHooks regs name).filter (fun r => r.priority = p) =
      (regs.filter (fun r => r.hookName = name)).filter (fun r => r.priority = p)) ∧
    (getHooks regs name).Perm (regs.filter (fun r => r.hookName = name)) :=
  ⟨sortByPriority_pairwise _, fun p => sortByPriority_filter_priority p _,
    getHooks_perm regs name⟩

/-- C7: if no registration matches a hook name, hasHooks is false and each
invocation function whose hook name it is returns the identity value of its
model on every event. -/
theorem no_hooks_identity (regs : List HookRegistration) (name : SuperpackHookName)
    (h : ∀ r ∈ regs, r.hookName ≠ name) :
    hasHooks regs name = false ∧
    (name = SuperpackHookName.system_prompt_tools_filter →
      ∀ ev, runSystemPromptToolsFilter regs ev = { tools := ev.tools }) ∧
    (name = SuperpackHookName.system_prompt_skills_filter →
      ∀ ev, runSystemPromptSkillsFilter regs ev = { skillsPrompt := ev.skillsPrompt }) ∧
    (name = SuperpackHookName.system_prompt_footer →
      ∀ ev, runSystemPromptFooter regs ev = { append := "" }) ∧
    (name = SuperpackHookName.workspace_bootstrap_before →
      ∀ ev, runWorkspaceBootstrapBefore regs ev = { files := ev.files, skip := false }) ∧
    (name = SuperpackHookName.workspace_bootstrap_after →
      ∀ ev, runWorkspaceBootstrapAfterTrace regs ev [] = [AfterEvent.resolved true]) ∧
    (name = SuperpackHookName.subagent_prompt_validate →
      ∀ ev, runSubagentPromptValidate regs ev = { block := false, reason := none }) := by
  have hnil : getHooks regs name = [] := getHooks_eq_nil h
  refine ⟨?_, ?_, ?_, ?_, ?_, ?_, ?_⟩
  · unfold hasHooks
    rw [List.any_eq_false]
    intro r hr
    simpa using h r hr
  · rintro rfl ev
    unfold runSystemPromptToolsFilter
    rw [hnil]
    rfl
  · rintro rfl ev
    unfold runSystemPromptSkillsFilter
    rw [hnil]
    rfl
  · rintro rfl ev
    unfold runSystemPromptFooter
    rw [hnil]
    rfl
  · rintro rfl ev
    unfold runWorkspaceBootstrapBefore
    rw [hnil]
    rfl
  · rintro rfl ev
    unfold runWorkspaceBootstrapAfterTrace
    rw [hnil]
    rfl
  · rintro rfl ev
    unfold runSubagentPromptValidate
    rw [hnil]
    rfl

/-- Witness for C7: a list holding only a footer registration has no
subagent-validate hooks, and validation returns the no-block default. -/
theorem no_hooks_identity_witness :
    hasHooks
      [⟨SuperpackHookName.system_prompt_footer,
        SuperpackHookHandler.footer (fun _ => Except.ok none), 3⟩]
      SuperpackHookName.subagent_prompt_validate = false ∧
    runSubagentPromptValidate
      [⟨SuperpackHookName.system_prompt_footer,
        SuperpackHookHandler.footer (fun _ => Except.ok none), 3⟩]
      { agentId := "sub", parentAgentId := "main", systemPrompt := "p",
        sessionKey := "s" } =
      { block := false, reason := none } := by
  have h := no_hooks_identity
    [⟨SuperpackHookName.system_prompt_footer,
      SuperpackHookHandler.footer (fun _ => Except.ok none), 3⟩]
    SuperpackHookName.subagent_prompt_validate
    (by
      intro r hr
      rcases List.mem_cons.mp hr with rfl | hr
      · intro hc; cases hc
      · cases hr)
  exact ⟨h.1, h.2.2.2.2.2.2 rfl _⟩

/-- C2: subagent validation scans the sorted handlers one at a time; a
handler halts the scan exactly when it returns a result object with a truthy
block field, in which case the run returns block true with that handler's
reason and invokes nothing after it; handlers that throw or do not block
leave the scan running; if no handler blocks the run returns the no-block
default after trying every handler. -/
theorem subagent_validate_first_match (regs : List HookRegistration)
    (event : SubagentPromptValidateEvent) :
    (∀ hook res, validateOutcome event hook = some res →
      res.block = true ∧ ∃ f r, hook.handler = SuperpackHookHandler.validate f ∧
        f event = Except.ok (some r) ∧ r.block = true ∧ res.reason = r.reason) ∧
    (∀ pre hook post res,
      getHooks regs SuperpackHookName.subagent_prompt_validate = pre ++ hook :: post →
      (∀ k ∈ pre, validateOutcome event k = none) →
      validateOutcome event hook = some res →
      runSubagentPromptValidate regs event = res ∧
      (runValidateLoop event
        (getHooks regs SuperpackHookName.subagent_prompt_validate)).1 = pre ++ [hook]) ∧
    ((∀ k ∈ getHooks regs SuperpackHookName.subagent_prompt_validate,
        validateOutcome event k = none) →
      runSubagentPromptValidate regs event = { block := false, reason := none } ∧
      (runValidateLoop event
        (getHooks regs SuperpackHookName.subagent_prompt_validate)).1 =
        getHooks regs SuperpackHookName.subagent_prompt_validate) ∧
    (getHooks regs SuperpackHookName.subagent_prompt_validate).Pairwise
      (fun a b => b.priority ≤ a.priority) := by
  refine ⟨?_, ?_, ?_, sortByPriority_pairwise _⟩
  · intro hook res h
    obtain ⟨n, hd, p⟩ := hook
    cases hd with
    | validate f =>
      simp only [validateOutcome] at h
      cases hf : f event with
      | error e => rw [hf] at h; cases h
      | ok o =>
        cases o with
        | none => rw [hf] at h; cases h
        | some r =>
          rw [hf] at h
          have h2 : (if r.block = true then
              some ({ block := true, reason := r.reason } :
                SubagentPromptValidateResult) else none) = some res := h
          cases hb : r.block with
          | false => rw [hb] at h2; simp at h2
          | true =>
            rw [hb] at h2
            rw [if_pos rfl] at h2
            obtain rfl := Option.some.inj h2
            exact ⟨rfl, f, r, rfl, hf, hb, rfl⟩
    | toolsFilter f => simp [validateOutcome] at h
    | skillsFilter f => simp [validateOutcome] at h
    | footer f => simp [validateOutcome] at h
    | bootstrapBefore f => simp [validateOutcome] at h
    | bootstrapAfter f => simp [validateOutcome] at h
  · intro pre hook post res heq hpre hblk
    unfold runSubagentPromptValidate
    rw [heq, runValidateLoop_first event post hpre hblk]
    exact ⟨rfl, rfl⟩
  · intro hnone
    unfold runSubagentPromptValidate
    rw [runValidateLoop_all_none event hnone]
    exact ⟨rfl, rfl⟩

/-- Witness for C2, the example from the spec: handlers at priorities 10, 5
and 1 where only the priority-5 and priority-1 handlers block — the returned
reason is the priority-5 reason, and the priority-1 handler is never
invoked.  The registration list is supplied unsorted. -/
theorem subagent_validate_first_match_witness :
    runSubagentPromptValidate
      [⟨SuperpackHookName.subagent_prompt_validate,
        SuperpackHookHandler.validate
          (fun _ => Except.ok (some ⟨true, some "five"⟩)), 5⟩,
       ⟨SuperpackHookName.subagent_prompt_validate,
        SuperpackHookHandler.validate
          (fun _ => Except.ok (some ⟨true, some "one"⟩)), 1⟩,
       ⟨SuperpackHookName.subagent_prompt_validate,
        SuperpackHookHandler.validate
          (fun _ => Except.ok (some ⟨false, none⟩)), 10⟩]
      { agentId := "sub", parentAgentId := "main", systemPrompt := "p",
        sessionKey := "s" } =
      { block := true, reason := some "five" } ∧
    (runValidateLoop
      { agentId := "sub", parentAgentId := "main", systemPrompt := "p",
        sessionKey := "s" }
      (getHooks
        [⟨SuperpackHookName.subagent_prompt_validate,
          SuperpackHookHandler.validate
            (fun _ => Except.ok (some ⟨true, some "five"⟩)), 5⟩,
         ⟨SuperpackHookName.subagent_prompt_validate,
          SuperpackHookHandler.validate
            (fun _ => Except.ok (some ⟨true, some "one"⟩)), 1⟩,
         ⟨SuperpackHookName.subagent_prompt_validate,
          SuperpackHookHandler.validate
            (fun _ => Except.ok (some ⟨false, none⟩)), 10⟩]
        SuperpackHookName.subagent_prompt_validate)).1 =
      [⟨SuperpackHookName.subagent_prompt_validate,
        SuperpackHookHandler.validate
          (fun _ => Except.ok (some ⟨false, none⟩)), 10⟩,
       ⟨SuperpackHookName.subagent_prompt_validate,
        SuperpackHookHandler.validate
          (fun _ => Except.ok (some ⟨true, some "five"⟩)), 5⟩] := by
  have h := subagent_validate_first_match
    [⟨SuperpackHookName.subagent_prompt_validate,
      SuperpackHookHandler.validate
        (fun _ => Except.ok (some ⟨true, some "five"⟩)), 5⟩,
     ⟨SuperpackHookName.subagent_prompt_validate,
      SuperpackHookHandler.validate
        (fun _ => Except.ok (some ⟨true, some "one"⟩)), 1⟩,
     ⟨SuperpackHookName.subagent_prompt_validate,
      SuperpackHookHandler.validate
        (fun _ => Except.ok (some ⟨false, none⟩)), 10⟩]
    { agentId := "sub", parentAgentId := "main", systemPrompt := "p",
      sessionKey := "s" }
  have h2 := h.2.1
    [⟨SuperpackHookName.subagent_prompt_validate,
      SuperpackHookHandler.validate
        (fun _ => Except.ok (some ⟨false, none⟩)), 10⟩]
    ⟨SuperpackHookName.subagent_prompt_validate,
      SuperpackHookHandler.validate
        (fun _ => Except.ok (some ⟨true, some "five"⟩)), 5⟩
    [⟨SuperpackHookName.subagent_prompt_validate,
      SuperpackHookHandler.validate
        (fun _ => Except.ok (some ⟨true, some "one"⟩)), 1⟩]
    { block := true, reason := some "five" }
    rfl
    (by
      intro k hk
      rcases List.mem_cons.mp hk with rfl | hk
      · rfl
      · cases hk)
    rfl
  exact ⟨h2.1, h2.2⟩

/-- C4: the three sequential-modifying runners fold the sorted handler list
over the mutable field starting from the event's value: each step invokes
the handler with the event whose mutable field is the running value; a
throw or a void return keeps the value, a result object replaces it when it
carries the field (and keeps it otherwise); the final result carries the
last value of the fold. -/
theorem sequential_modifying_fold (regs : List HookRegistration)
    (evT : SystemPromptToolsFilterEvent) (evS : SystemPromptSkillsFilterEvent)
    (evB : WorkspaceBootstrapBeforeEvent) :
    runSystemPromptToolsFilter regs evT =
      { tools := (getHooks regs SuperpackHookName.system_prompt_tools_filter).foldl
          (toolsStep evT) evT.tools } ∧
    (∀ cur hook f, hook.handler = SuperpackHookHandler.toolsFilter f →
      (f { evT with tools := cur } = Except.error () → toolsStep evT cur hook = cur) ∧
      (f { evT with tools := cur } = Except.ok none → toolsStep evT cur hook = cur) ∧
      (∀ r, f { evT with tools := cur } = Except.ok (some r) →
        toolsStep evT cur hook = r.tools.getD cur)) ∧
    runSystemPromptSkillsFilter regs evS =
      { skillsPrompt := (getHooks regs SuperpackHookName.system_prompt_skills_filter).foldl
          (skillsStep evS) evS.skillsPrompt } ∧
    (∀ cur hook f, hook.handler = SuperpackHookHandler.skillsFilter f →
      (f { evS with skillsPrompt := cur } = Except.error () →
        skillsStep evS cur hook = cur) ∧
      (f { evS with skillsPrompt := cur } = Except.ok none →
        skillsStep evS cur hook = cur) ∧
      (∀ r, f { evS with skillsPrompt := cur } = Except.ok (some r) →
        skillsStep evS cur hook = r.skillsPrompt.getD cur)) ∧
    runWorkspaceBootstrapBefore regs evB =
      { files := ((getHooks regs SuperpackHookName.workspace_bootstrap_before).foldl
          (beforeStep evB) (evB.files, false)).1,
        skip := ((getHooks regs SuperpackHookName.workspace_bootstrap_before).foldl
          (beforeStep evB) (evB.files, false)).2 } ∧
    (∀ st hook f, hook.handler = SuperpackHookHandler.bootstrapBefore f →
      (f { evB with files := st.1 } = Except.error () → beforeStep evB st hook = st) ∧
      (f { evB with files := st.1 } = Except.ok none → beforeStep evB st hook = st) ∧
      (∀ r, f { evB with files := st.1 } = Except.ok (some r) →
        beforeStep evB st hook = (r.files.getD st.1, st.2 || r.skip))) := by
  refine ⟨?_, ?_, ?_, ?_, ?_, ?_⟩
  · unfold runSystemPromptToolsFilter
    rw [runToolsLoop_snd]
  · intro cur hook f heq
    refine ⟨?_, ?_, ?_⟩
    · intro hf; simp [toolsStep, heq, hf]
    · intro hf; simp [toolsStep, heq, hf]
    · intro r hf; simp [toolsStep, heq, hf]
  · unfold runSystemPromptSkillsFilter
    rw [runSkillsLoop_snd]
  · intro cur hook f heq
    refine ⟨?_, ?_, ?_⟩
    · intro hf; simp [skillsStep, heq, hf]
    · intro hf; simp [skillsStep, heq, hf]
    · intro r hf; simp [skillsStep, heq, hf]
  · unfold runWorkspaceBootstrapBefore
    rw [runBeforeLoop_snd]
  · intro st hook f heq
    refine ⟨?_, ?_, ?_⟩
    · intro hf; simp [beforeStep, heq, hf]
    · intro hf; simp [beforeStep, heq, hf]
    · intro r hf; simp [beforeStep, heq, hf]

/-- Witness for C4: a tools-filter handler that returns a replacement tool
list replaces the running value, and the run carries the fold result. -/
theorem sequential_modifying_fold_witness :
    runSystemPromptToolsFilter
      [⟨SuperpackHookName.system_prompt_tools_filter,
        SuperpackHookHandler.toolsFilter
          (fun _ => Except.ok (some ⟨some [⟨"read", none⟩]⟩)), 0⟩]
      { agentId := "main", promptMode := "full",
        tools := [⟨"exec", none⟩, ⟨"read", none⟩] } =
      { tools := [⟨"read", none⟩] } ∧
    toolsStep
      { agentId := "main", promptMode := "full",
        tools := [⟨"exec", none⟩, ⟨"read", none⟩] }
      [⟨"exec", none⟩, ⟨"read", none⟩]
      ⟨SuperpackHookName.system_prompt_tools_filter,
        SuperpackHookHandler.toolsFilter
          (fun _ => Except.ok (some ⟨some [⟨"read", none⟩]⟩)), 0⟩ =
      [⟨"read", none⟩] := by
  have h := sequential_modifying_fold
    [⟨SuperpackHookName.system_prompt_tools_filter,
      SuperpackHookHandler.toolsFilter
        (fun _ => Except.ok (some ⟨some [⟨"read", none⟩]⟩)), 0⟩]
    { agentId := "main", promptMode := "full",
      tools := [⟨"exec", none⟩, ⟨"read", none⟩] }
    { agentId := "main", promptMode := "full", skillsPrompt := "sk" }
    { workspaceDir := "/w", files := [], isNewWorkspace := true }
  refine ⟨h.1.trans (by rfl), ?_⟩
  have h2 := (h.2.1 [⟨"exec", none⟩, ⟨"read", none⟩]
    ⟨SuperpackHookName.system_prompt_tools_filter,
      SuperpackHookHandler.toolsFilter
        (fun _ => Except.ok (some ⟨some [⟨"read", none⟩]⟩)), 0⟩
    (fun _ => Except.ok (some ⟨some [⟨"read", none⟩]⟩)) rfl).2.2
    ⟨some [⟨"read", none⟩]⟩ rfl
  exact h2.trans (by rfl)

/-- C5: the skip flag of runWorkspaceBootstrapBefore is a monotonic OR over
the chain — a step never resets a true flag, and the final flag is true
exactly when some handler, run from the state the chain had reached at its
position, returned a result object with a truthy skip field; setting skip
does not short-circuit: every handler still runs and the file list is the
fold over the whole chain. -/
theorem bootstrap_before_skip_monotone (regs : List HookRegistration)
    (event : WorkspaceBootstrapBeforeEvent) :
    (∀ st hook, st.2 = true → (beforeStep event st hook).2 = true) ∧
    ((runWorkspaceBootstrapBefore regs event).skip = true ↔
      ∃ pre hook post,
        getHooks regs SuperpackHookName.workspace_bootstrap_before =
          pre ++ hook :: post ∧
        beforeSetsSkip event (pre.foldl (beforeStep event) (event.files, false))
          hook = true) ∧
    (runBeforeLoop event (getHooks regs SuperpackHookName.workspace_bootstrap_before)
        (event.files, false)).1.length =
      (getHooks regs SuperpackHookName.workspace_bootstrap_before).length ∧
    (runWorkspaceBootstrapBefore regs event).files =
      ((getHooks regs SuperpackHookName.workspace_bootstrap_before).foldl
        (beforeStep event) (event.files, false)).1 := by
  refine ⟨?_, ?_, ?_, ?_⟩
  · intro st hook hst
    rw [beforeStep_snd, hst]
    rfl
  · show ((runBeforeLoop event _ _).2.2 = true) ↔ _
    rw [runBeforeLoop_snd, foldl_beforeStep_snd]
    show (false || _) = true ↔ _
    rw [Bool.false_or]
    exact anySkip_iff event _ _
  · exact runBeforeLoop_length event _ _
  · show (runBeforeLoop event _ _).2.1 = _
    rw [runBeforeLoop_snd]

/-- Witness for C5: a priority-10 handler sets skip and replaces the file
list; the priority-5 handler still runs, returns skip false and transforms
the files again — the final result keeps skip true and the later file
list. -/
theorem bootstrap_before_skip_monotone_witness :
    (beforeStep
      { workspaceDir := "/w", files := [], isNewWorkspace := true }
      ([], true)
      ⟨SuperpackHookName.workspace_bootstrap_before,
        SuperpackHookHandler.bootstrapBefore
          (fun _ => Except.ok (some ⟨some [⟨"b", "B"⟩], false⟩)), 5⟩).2 = true ∧
    runWorkspaceBootstrapBefore
      [⟨SuperpackHookName.workspace_bootstrap_before,
        SuperpackHookHandler.bootstrapBefore
          (fun _ => Except.ok (some ⟨some [⟨"a", "A"⟩], true⟩)), 10⟩,
       ⟨SuperpackHookName.workspace_bootstrap_before,
        SuperpackHookHandler.bootstrapBefore
          (fun _ => Except.ok (some ⟨some [⟨"b", "B"⟩], false⟩)), 5⟩]
      { workspaceDir := "/w", files := [], isNewWorkspace := true } =
      { files := [⟨"b", "B"⟩], skip := true } := by
  have h := bootstrap_before_skip_monotone
    [⟨SuperpackHookName.workspace_bootstrap_before,
      SuperpackHookHandler.bootstrapBefore
        (fun _ => Except.ok (some ⟨some [⟨"a", "A"⟩], true⟩)), 10⟩,
     ⟨SuperpackHookName.workspace_bootstrap_before,
      SuperpackHookHandler.bootstrapBefore
        (fun _ => Except.ok (some ⟨some [⟨"b", "B"⟩], false⟩)), 5⟩]
    { workspaceDir := "/w", files := [], isNewWorkspace := true }
  exact ⟨h.1 ([], true) _ rfl, by rfl⟩

/-- C6: the footer runner applies every sorted handler to the original
event; the result joins, with single newlines, exactly the present and
non-empty fragments of the non-throwing handlers, in handler order; with no
contributing handler the append field is the empty string. -/
theorem footer_join (regs : List HookRegistration) (event : SystemPromptFooterEvent) :
    runSystemPromptFooter regs event =
      { append := String.intercalate "\n"
          ((getHooks regs SuperpackHookName.system_prompt_footer).filterMap
            (footerContrib event)) } ∧
    (∀ hook f, hook.handler = SuperpackHookHandler.footer f →
      (f event = Except.error () → footerContrib event hook = none) ∧
      (f event = Except.ok none → footerContrib event hook = none) ∧
      (∀ r, f event = Except.ok (some r) → r.append = none →
        footerContrib event hook = none) ∧
      (∀ r, f event = Except.ok (some r) → r.append = some "" →
        footerContrib event hook = none) ∧
      (∀ r a, f event = Except.ok (some r) → r.append = some a → a ≠ "" →
        footerContrib event hook = some a)) ∧
    ((getHooks regs SuperpackHookName.system_prompt_footer).filterMap
        (footerContrib event) = [] →
      runSystemPromptFooter regs event = { append := "" }) := by
  have hbase : runSystemPromptFooter regs event =
      { append := String.intercalate "\n"
          ((getHooks regs SuperpackHookName.system_prompt_footer).filterMap
            (footerContrib event)) } := by
    unfold runSystemPromptFooter
    rw [runFooterLoop_eq_filterMap]
  refine ⟨hbase, ?_, ?_⟩
  · intro hook f heq
    refine ⟨?_, ?_, ?_, ?_, ?_⟩
    · intro hf; simp [footerContrib, heq, hf]
    · intro hf; simp [footerContrib, heq, hf]
    · intro r hf ha; simp [footerContrib, heq, hf, ha]
    · intro r hf ha; simp [footerContrib, heq, hf, ha]
    · intro r a hf ha hne; simp [footerContrib, heq, hf, ha, hne]
  · intro hnil
    rw [hbase, hnil]
    rfl

/-- Witness for C6, the example from the spec: fragments "A" at priority 10
and "B" at priority 5 (registered in the other order) join to exactly "A",
newline, "B"; the non-empty fragment clause is exercised at the priority-10
handler. -/
theorem footer_join_witness :
    runSystemPromptFooter
      [⟨SuperpackHookName.system_prompt_footer,
        SuperpackHookHandler.footer (fun _ => Except.ok (some ⟨some "B"⟩)), 5⟩,
       ⟨SuperpackHookName.system_prompt_footer,
        SuperpackHookHandler.footer (fun _ => Except.ok (some ⟨some "A"⟩)), 10⟩]
      { agentId := "main", promptMode := "full", currentPrompt := "base" } =
      { append := "A\nB" } ∧
    footerContrib
      { agentId := "main", promptMode := "full", currentPrompt := "base" }
      ⟨SuperpackHookName.system_prompt_footer,
        SuperpackHookHandler.footer (fun _ => Except.ok (some ⟨some "A"⟩)), 10⟩ =
      some "A" := by
  have h := footer_join
    [⟨SuperpackHookName.system_prompt_footer,
      SuperpackHookHandler.footer (fun _ => Except.ok (some ⟨some "B"⟩)), 5⟩,
     ⟨SuperpackHookName.system_prompt_footer,
      SuperpackHookHandler.footer (fun _ => Except.ok (some ⟨some "A"⟩)), 10⟩]
    { agentId := "main", promptMode := "full", currentPrompt := "base" }
  refine ⟨h.1.trans (by rfl), ?_⟩
  exact (h.2.1
    ⟨SuperpackHookName.system_prompt_footer,
      SuperpackHookHandler.footer (fun _ => Except.ok (some ⟨some "A"⟩)), 10⟩
    (fun _ => Except.ok (some ⟨some "A"⟩)) rfl).2.2.2.2
    ⟨some "A"⟩ "A" rfl rfl (by decide)

/-- C8: under any settlement order σ of the wrapped bootstrap-after tasks,
every matching handler settles exactly once — invoked with the original
event — strictly before the aggregate promise resolves, nothing but task
settlements precedes the resolution, and the aggregate always resolves
(never rejects), whether or not individual handlers threw. -/
theorem bootstrap_after_all_settle (regs : List HookRegistration)
    (event : WorkspaceBootstrapAfterEvent) (σ : List Nat)
    (hσ : σ.Perm (List.range
      (getHooks regs SuperpackHookName.workspace_bootstrap_after).length)) :
    (∀ i, i < (getHooks regs SuperpackHookName.workspace_bootstrap_after).length →
      (runWorkspaceBootstrapAfterTrace regs event σ).dropLast.count
        (AfterEvent.settled i (afterInner event
          ((getHooks regs SuperpackHookName.workspace_bootstrap_after).getD i
            default))) = 1) ∧
    (∀ e ∈ (runWorkspaceBootstrapAfterTrace regs event σ).dropLast,
      ∃ i, i < (getHooks regs SuperpackHookName.workspace_bootstrap_after).length ∧
        e = AfterEvent.settled i (afterInner event
          ((getHooks regs SuperpackHookName.workspace_bootstrap_after).getD i
            default))) ∧
    (runWorkspaceBootstrapAfterTrace regs event σ).getLast? =
      some (AfterEvent.resolved true) := by
  have hdrop : (runWorkspaceBootstrapAfterTrace regs event σ).dropLast =
      σ.map (fun i => AfterEvent.settled i (afterInner event
        ((getHooks regs SuperpackHookName.workspace_bootstrap_after).getD i
          default))) := by
    unfold runWorkspaceBootstrapAfterTrace
    exact List.dropLast_concat
  have hnodupσ : σ.Nodup := hσ.nodup_iff.mpr (List.nodup_range _)
  refine ⟨?_, ?_, ?_⟩
  · intro i hi
    rw [hdrop]
    have hmemσ : i ∈ σ := hσ.mem_iff.mpr (List.mem_range.mpr hi)
    have hinj : Function.Injective (fun i => AfterEvent.settled i (afterInner event
        ((getHooks regs SuperpackHookName.workspace_bootstrap_after).getD i
          default))) := by
      intro a b hab
      simpa using (AfterEvent.settled.injEq _ _ _ _).mp hab |>.1
    have hnodup := hnodupσ.map hinj
    exact List.count_eq_one_of_mem hnodup (List.mem_map_of_mem _ hmemσ)
  · intro e he
    rw [hdrop] at he
    rcases List.mem_map.mp he with ⟨i, hiσ, rfl⟩
    exact ⟨i, List.mem_range.mp (hσ.mem_iff.mp hiσ), rfl⟩
  · unfold runWorkspaceBootstrapAfterTrace
    rw [List.getLast?_concat]
    have : promiseAllOutcome (σ.map (fun i => afterTaskOutcome event
        ((getHooks regs SuperpackHookName.workspace_bootstrap_after).getD i
          default))) = true := by
      unfold promiseAllOutcome
      rw [List.all_eq_true]
      intro o ho
      rcases List.mem_map.mp ho with ⟨i, -, rfl⟩
      exact afterTaskOutcome_true event _
    rw [this]

/-- Witness for C8: two handlers at priorities 10 and 5, the first of which
throws; under the settlement order that finishes the second task first, both
settle before the resolution, the throwing one settling with a failed inner
handler, and the aggregate still resolves. -/
theorem bootstrap_after_all_settle_witness :
    (runWorkspaceBootstrapAfterTrace
      [⟨SuperpackHookName.workspace_bootstrap_after,
        SuperpackHookHandler.bootstrapAfter (fun _ => Except.error ()), 10⟩,
       ⟨SuperpackHookName.workspace_bootstrap_after,
        SuperpackHookHandler.bootstrapAfter (fun _ => Except.ok ()), 5⟩]
      { workspaceDir := "/w", filesWritten := ["a"], filesSkipped := [] }
      [1, 0]).dropLast.count (AfterEvent.settled 0 false) = 1 ∧
    (runWorkspaceBootstrapAfterTrace
      [⟨SuperpackHookName.workspace_bootstrap_after,
        SuperpackHookHandler.bootstrapAfter (fun _ => Except.error ()), 10⟩,
       ⟨SuperpackHookName.workspace_bootstrap_after,
        SuperpackHookHandler.bootstrapAfter (fun _ => Except.ok ()), 5⟩]
      { workspaceDir := "/w", filesWritten := ["a"], filesSkipped := [] }
      [1, 0]).dropLast.count (AfterEvent.settled 1 true) = 1 ∧
    (runWorkspaceBootstrapAfterTrace
      [⟨SuperpackHookName.workspace_bootstrap_after,
        SuperpackHookHandler.bootstrapAfter (fun _ => Except.error ()), 10⟩,
       ⟨SuperpackHookName.workspace_bootstrap_after,
        SuperpackHookHandler.bootstrapAfter (fun _ => Except.ok ()), 5⟩]
      { workspaceDir := "/w", filesWritten := ["a"], filesSkipped := [] }
      [1, 0]).getLast? = some (AfterEvent.resolved true) := by
  have h := bootstrap_after_all_settle
    [⟨SuperpackHookName.workspace_bootstrap_after,
      SuperpackHookHandler.bootstrapAfter (fun _ => Except.error ()), 10⟩,
     ⟨SuperpackHookName.workspace_bootstrap_after,
      SuperpackHookHandler.bootstrapAfter (fun _ => Except.ok ()), 5⟩]
    { workspaceDir := "/w", filesWritten := ["a"], filesSkipped := [] }
    [1, 0]
    (by
      have hl : (getHooks
          [⟨SuperpackHookName.workspace_bootstrap_after,
            SuperpackHookHandler.bootstrapAfter (fun _ => Except.error ()), 10⟩,
           ⟨SuperpackHookName.workspace_bootstrap_after,
            SuperpackHookHandler.bootstrapAfter (fun _ => Except.ok ()), 5⟩]
          SuperpackHookName.workspace_bootstrap_after).length = 2 := rfl
      rw [hl]
      exact List.Perm.swap 0 1 [])
  exact ⟨h.1 0 Nat.zero_lt_two, h.1 1 Nat.one_lt_two, h.2.2⟩

/-- C9: each handler of a sequential-modifying runner is invoked with a
freshly built event view whose non-mutable fields are the original event's
and whose mutable field is the running fold value; the original event record
is a value the runner never writes (the trace entry is a new record each
time). -/
theorem fresh_event_views (regs : List HookRegistration)
    (evT : SystemPromptToolsFilterEvent) (evS : SystemPromptSkillsFilterEvent)
    (evB : WorkspaceBootstrapBeforeEvent) :
    (∀ i, i < (getHooks regs SuperpackHookName.system_prompt_tools_filter).length →
      (runToolsLoop evT (getHooks regs SuperpackHookName.system_prompt_tools_filter)
          evT.tools).1.getD i default =
        { agentId := evT.agentId, promptMode := evT.promptMode,
          tools := ((getHooks regs
              SuperpackHookName.system_prompt_tools_filter).take i).foldl
            (toolsStep evT) evT.tools }) ∧
    (∀ i, i < (getHooks regs SuperpackHookName.system_prompt_skills_filter).length →
      (runSkillsLoop evS (getHooks regs SuperpackHookName.system_prompt_skills_filter)
          evS.skillsPrompt).1.getD i default =
        { agentId := evS.agentId, promptMode := evS.promptMode,
          skillsPrompt := ((getHooks regs
              SuperpackHookName.system_prompt_skills_filter).take i).foldl
            (skillsStep evS) evS.skillsPrompt }) ∧
    (∀ i, i < (getHooks regs SuperpackHookName.workspace_bootstrap_before).length →
      (runBeforeLoop evB (getHooks regs SuperpackHookName.workspace_bootstrap_before)
          (evB.files, false)).1.getD i default =
        { workspaceDir := evB.workspaceDir,
          files := (((getHooks regs
              SuperpackHookName.workspace_bootstrap_before).take i).foldl
            (beforeStep evB) (evB.files, false)).1,
          isNewWorkspace := evB.isNewWorkspace }) := by
  refine ⟨?_, ?_, ?_⟩
  · intro i hi
    exact runToolsLoop_getD evT _ evT.tools i hi
  · intro i hi
    exact runSkillsLoop_getD evS _ evS.skillsPrompt i hi
  · intro i hi
    exact runBeforeLoop_getD evB _ (evB.files, false) i hi

/-- Witness for C9: the second tools handler (priority 5) observes the view
built from the first handler's output while keeping the original agentId and
promptMode. -/
theorem fresh_event_views_witness :
    (runToolsLoop
      { agentId := "main", promptMode := "full", tools := [⟨"exec", none⟩] }
      (getHooks
        [⟨SuperpackHookName.system_prompt_tools_filter,
          SuperpackHookHandler.toolsFilter
            (fun _ => Except.ok (some ⟨some [⟨"read", none⟩]⟩)), 10⟩,
         ⟨SuperpackHookName.system_prompt_tools_filter,
          SuperpackHookHandler.toolsFilter (fun _ => Except.ok none), 5⟩]
        SuperpackHookName.system_prompt_tools_filter)
      [⟨"exec", none⟩]).1.getD 1 default =
      { agentId := "main", promptMode := "full", tools := [⟨"read", none⟩] } := by
  have h := fresh_event_views
    [⟨SuperpackHookName.system_prompt_tools_filter,
      SuperpackHookHandler.toolsFilter
        (fun _ => Except.ok (some ⟨some [⟨"read", none⟩]⟩)), 10⟩,
     ⟨SuperpackHookName.system_prompt_tools_filter,
      SuperpackHookHandler.toolsFilter (fun _ => Except.ok none), 5⟩]
    { agentId := "main", promptMode := "full", tools := [⟨"exec", none⟩] }
    { agentId := "main", promptMode := "full", skillsPrompt := "sk" }
    { workspaceDir := "/w", files := [], isNewWorkspace := true }
  exact (h.1 1 Nat.one_lt_two).trans (by rfl)

/-- C10: the store-level getHooks — the only access any invocation function
makes to the registration array — writes no pre-existing cell: the caller's
array (and every other live array) is unchanged, the returned array is a
fresh cell distinct from the argument, and its content is the pure
getHooks of the argument's content, so repeated invocations observe an
identical handler order. -/
theorem registration_array_preserved (st : RegStore) (r : ArrayRef)
    (name : SuperpackHookName) (h : r < st.length) :
    (∀ r2, r2 < st.length → readRef (getHooksRef st r name).1 r2 = readRef st r2) ∧
    readRef (getHooksRef st r name).1 (getHooksRef st r name).2 =
      getHooks (readRef st r) name ∧
    (getHooksRef st r name).2 ≠ r := by
  refine ⟨?_, ?_, ?_⟩
  · intro r2 h2
    rw [getHooksRef_eq]
    show readRef (st ++ [(readRef st r).filter (fun x => x.hookName = name)] ++
      [getHooks (readRef st r) name]) r2 = readRef st r2
    rw [List.append_assoc]
    exact readRef_append_lt st _ h2
  · rw [getHooksRef_eq]
    show readRef (st ++ [(readRef st r).filter (fun x => x.hookName = name)] ++
      [getHooks (readRef st r) name]) (st.length + 1) = getHooks (readRef st r) name
    have hl : st.length + 1 =
        (st ++ [(readRef st r).filter (fun x => x.hookName = name)]).length := by
      simp
    rw [hl]
    exact readRef_append_singleton _ _
  · rw [getHooksRef_eq]
    show st.length + 1 ≠ r
    exact ne_of_gt (Nat.lt_succ_of_lt h)

/-- Witness for C10 at a one-cell store holding a two-entry registration
array. -/
theorem registration_array_preserved_witness :
    readRef
      (getHooksRef
        [[⟨SuperpackHookName.system_prompt_footer,
           SuperpackHookHandler.footer (fun _ => Except.ok none), 1⟩,
          ⟨SuperpackHookName.system_prompt_footer,
           SuperpackHookHandler.footer (fun _ => Except.ok none), 2⟩]]
        0 SuperpackHookName.system_prompt_footer).1 0 =
      [⟨SuperpackHookName.system_prompt_footer,
        SuperpackHookHandler.footer (fun _ => Except.ok none), 1⟩,
       ⟨SuperpackHookName.system_prompt_footer,
        SuperpackHookHandler.footer (fun _ => Except.ok none), 2⟩] ∧
    (getHooksRef
      [[⟨SuperpackHookName.system_prompt_footer,
         SuperpackHookHandler.footer (fun _ => Except.ok none), 1⟩,
        ⟨SuperpackHookName.system_prompt_footer,
         SuperpackHookHandler.footer (fun _ => Except.ok none), 2⟩]]
      0 SuperpackHookName.system_prompt_footer).2 ≠ 0 := by
  have h := registration_array_preserved
    [[⟨SuperpackHookName.system_prompt_footer,
       SuperpackHookHandler.footer (fun _ => Except.ok none), 1⟩,
      ⟨SuperpackHookName.system_prompt_footer,
       SuperpackHookHandler.footer (fun _ => Except.ok none), 2⟩]]
    0 SuperpackHookName.system_prompt_footer (by decide)
  exact ⟨(h.1 0 (by decide)).trans (by rfl), h.2.2⟩
